import Mathlib

/-!
# Client-side session layer of the expansion-rag chat application

A shallow embedding, in Lean 4, of the three state managers of the
repository's frontend session layer:

* the conversation session manager (`useConversations`, `src/unnamed/part_000`),
* the upload lifecycle manager (`useFileUpload`, `src/unnamed/part_001`),
* the knowledge-base listing sync (`useFileList`,
  `src/expansion_rag_frontend/hooks/useFileList.ts`).

React `useState` state is modelled by explicit state records; every event
handler becomes a pure function from the old state (plus the values the
browser runtime supplies: fresh UUIDs, the current clock instant, network
responses, confirmation-dialog answers) to the new state.  JavaScript
`Date` values are modelled as natural numbers counting milliseconds since
the Unix epoch (the application only ever creates dates with `new Date()`,
so no pre-1970 instants arise).

## The `Date` serialization model

`JSON.stringify` serializes a `Date` through `Date.prototype.toJSON`,
which is `toISOString` — the proleptic-Gregorian UTC timestamp
`YYYY-MM-DDTHH:MM:SS.sssZ` — and `new Date(string)` parses that format
back exactly, at millisecond precision.  `isoOfTime` and `timeOfIso`
below model this built-in pair for every instant up to year 9999 (the
range in which `toISOString` uses the fixed 24-character format).  The
calendar conversion uses the standard era/century/quadrennium/year
decomposition of the Gregorian calendar with internal March-based years.
-/

/-- Proleptic-Gregorian `(year, month, day)` from days since 1970-01-01,
by peeling off 400-year eras (146097 days), centuries (36524 days, the
last of an era 36525), quadrennia (1461 days, the last of a plain century
1460) and years (365 days, the last of a quadrennium 366); `min` caps the
index so that the oversized final block absorbs the extra day.  Internally
years start in March, so month numbers come out of `mp ∈ [0, 11]` as
March..December = 3..12 and January, February = 1, 2 of the next year. -/
def civilFromDays (days : Nat) : Nat × Nat × Nat :=
  let z := days + 719468
  let era := z / 146097
  let doe := z % 146097
  let c := min (doe / 36524) 3
  let doc := doe - 36524 * c
  let q := min (doc / 1461) 24
  let doq := doc - 1461 * q
  let yq := min (doq / 365) 3
  let doy := doq - 365 * yq
  let mp := (5 * doy + 2) / 153
  let d := doy - (153 * mp + 2) / 5 + 1
  let m := if mp < 10 then mp + 3 else mp - 9
  let yoe := 100 * c + 4 * q + yq
  let y := yoe + era * 400 + (if m ≤ 2 then 1 else 0)
  (y, m, d)

/-- Days since 1970-01-01 of a proleptic-Gregorian civil date
(the inverse direction, used by the ISO-timestamp parser). -/
def daysFromCivil (y m d : Nat) : Nat :=
  let y' := y - (if m ≤ 2 then 1 else 0)
  let era := y' / 400
  let yoe := y' % 400
  let mp := if 2 < m then m - 3 else m + 9
  let doy := (153 * mp + 2) / 5 + d - 1
  let doe := yoe * 365 + yoe / 4 - yoe / 100 + doy
  era * 146097 + doe - 719468

/-- Decimal digit character of `n % 10`. -/
def digitChar (n : Nat) : Char :=
  match n % 10 with
  | 0 => '0' | 1 => '1' | 2 => '2' | 3 => '3' | 4 => '4'
  | 5 => '5' | 6 => '6' | 7 => '7' | 8 => '8' | _ => '9'

/-- Numeric value of a decimal digit character. -/
def digitVal (c : Char) : Nat := c.toNat - 48

/-- Two-digit zero-padded decimal rendering (of values below 100). -/
def pad2 (n : Nat) : List Char := [digitChar (n / 10), digitChar n]

/-- Three-digit zero-padded decimal rendering (of values below 1000). -/
def pad3 (n : Nat) : List Char := [digitChar (n / 100), digitChar (n / 10), digitChar n]

/-- Four-digit zero-padded decimal rendering (of values below 10000). -/
def pad4 (n : Nat) : List Char :=
  [digitChar (n / 1000), digitChar (n / 100), digitChar (n / 10), digitChar n]

/-- Model of `Date.prototype.toISOString` on an instant `t` in
milliseconds since the Unix epoch: the 24-character UTC timestamp
`YYYY-MM-DDTHH:MM:SS.sssZ` (exact for every date up to year 9999). -/
def isoOfTime (t : Nat) : String :=
  let rem := t % 86400000
  let ymd := civilFromDays (t / 86400000)
  String.mk (pad4 ymd.1 ++ '-' :: pad2 ymd.2.1 ++ '-' :: pad2 ymd.2.2 ++
    'T' :: pad2 (rem / 3600000) ++ ':' :: pad2 (rem / 60000 % 60) ++
    ':' :: pad2 (rem / 1000 % 60) ++ '.' :: pad3 (rem % 1000) ++ ['Z'])

/-- Model of `new Date(s).getTime()` on a 24-character ISO timestamp of
the form produced by `isoOfTime` (any other shape yields 0, a value the
development never relies on). -/
def timeOfIso (s : String) : Nat :=
  match s.toList with
  | [y3, y2, y1, y0, _, mo1, mo0, _, d1, d0, _,
     h1, h0, _, mi1, mi0, _, s1, s0, _, ms2, ms1, ms0, _] =>
      daysFromCivil
          (1000 * digitVal y3 + 100 * digitVal y2 + 10 * digitVal y1 + digitVal y0)
          (10 * digitVal mo1 + digitVal mo0)
          (10 * digitVal d1 + digitVal d0) * 86400000 +
        (10 * digitVal h1 + digitVal h0) * 3600000 +
        (10 * digitVal mi1 + digitVal mi0) * 60000 +
        (10 * digitVal s1 + digitVal s0) * 1000 +
        (100 * digitVal ms2 + 10 * digitVal ms1 + digitVal ms0)
  | _ => 0

/-- First instant not representable in the fixed 24-character ISO format:
10000-01-01T00:00:00.000Z, in milliseconds since the epoch. -/
def isoTimeMax : Nat := 253402300800000

/-!
## Data model (`src/unnamed/part_000`, `src/unnamed/part_001`, `types/api`)

`Message` is imported by the hooks from `types/api`, which is not part of
the sources at hand; its shape is modelled from the spec's data model:
role, content, timestamp, optional citation list, optional expanded-query
list.  A message timestamp is a JavaScript dynamic value: a `Date` when
the message was created in this session, or the serialized ISO string
when the surrounding conversation was reloaded from the durable store
(the load path revives only the conversation's `lastUpdated`; message
timestamps stay in textual form, and the renderer re-parses them with
`new Date(message.timestamp)`).  `TimeRep` captures both shapes.
-/
/-- A JavaScript timestamp value: a live `Date` (milliseconds since the
epoch) or the ISO text left behind by JSON deserialization. -/
inductive TimeRep
  | instant (t : Nat)
  | text (s : String)
deriving DecidableEq, Repr

/-- Modelled from the spec: a citation record attached to an assistant
message — `{chunkId, documentId, text, score, metadata}`.  JSON carries
strings and numbers verbatim through a stringify/parse round trip
(ECMAScript prints numbers in shortest round-trip form), so the payload
type only needs decidable equality; `Rat` stands in for the IEEE-double
score. -/
structure Citation where
  chunkId : String
  documentId : String
  text : String
  score : Rat
  metadata : List (String × String)
deriving DecidableEq, Repr

/-- Message role: the `"user" | "assistant"` string enumeration. -/
inductive Role
  | user
  | assistant
deriving DecidableEq, BEq, Repr

/-- Modelled from the spec: the `Message` record of `types/api`. -/
structure Message where
  role : Role
  content : String
  timestamp : TimeRep
  sources : Option (List Citation)
  expandedQueries : Option (List String)
deriving DecidableEq, Repr

/-- The `Conversation` record of `useConversations`
(`src/unnamed/part_000`, lines 5–11). -/
structure Conversation where
  id : String
  title : String
  messages : List Message
  lastUpdated : Nat
  metaInformation : Option String
deriving DecidableEq, Repr

/-- The two `useState` cells of `useConversations`: the collection and
the current-conversation cursor. -/
structure ConvState where
  conversations : List Conversation
  currentConversationId : Option String
deriving DecidableEq, Repr

/-!
## Serialized (persisted) form

`JSON.stringify` of the conversation list maps every `Date` to its ISO
string and leaves all other fields structurally intact; `JSON.parse`
returns that structure verbatim.  `StoredMessage` / `StoredConversation`
are the parsed snapshot shapes.
-/
/-- A message as it sits in the persisted JSON snapshot: the timestamp
has become its ISO text. -/
structure StoredMessage where
  role : Role
  content : String
  timestamp : String
  sources : Option (List Citation)
  expandedQueries : Option (List String)
deriving DecidableEq, Repr

/-- A conversation as it sits in the persisted JSON snapshot. -/
structure StoredConversation where
  id : String
  title : String
  messages : List StoredMessage
  lastUpdated : String
  metaInformation : Option String
deriving DecidableEq, Repr

/-- Serialization of a live timestamp value: a `Date` prints as its ISO
string, a string is carried verbatim. -/
def isoOfTimeRep : TimeRep → String
  | .instant t => isoOfTime t
  | .text s => s

/-- `JSON.stringify` on one message. -/
def serializeMessage (message : Message) : StoredMessage :=
  { role := message.role, content := message.content,
    timestamp := isoOfTimeRep message.timestamp,
    sources := message.sources, expandedQueries := message.expandedQueries }

/-- A parsed message adopted back into the live state: the load path does
not touch messages, so the timestamp stays textual. -/
def loadMessage (stored : StoredMessage) : Message :=
  { role := stored.role, content := stored.content,
    timestamp := .text stored.timestamp,
    sources := stored.sources, expandedQueries := stored.expandedQueries }

/-- `JSON.stringify` on one conversation (the save effect,
`src/unnamed/part_000` line 61). -/
def serializeConversation (conv : Conversation) : StoredConversation :=
  { id := conv.id, title := conv.title,
    messages := conv.messages.map serializeMessage,
    lastUpdated := isoOfTime conv.lastUpdated,
    metaInformation := conv.metaInformation }

/-- The load-effect revival map (`src/unnamed/part_000` lines 41–44):
`{...conv, lastUpdated: new Date(conv.lastUpdated)}` — only `lastUpdated`
is reconstituted to an instant. -/
def loadConversation (stored : StoredConversation) : Conversation :=
  { id := stored.id, title := stored.title,
    messages := stored.messages.map loadMessage,
    lastUpdated := timeOfIso stored.lastUpdated,
    metaInformation := stored.metaInformation }

/-- Full-snapshot persistence of the conversation collection. -/
def saveConversations (convs : List Conversation) : List StoredConversation :=
  convs.map serializeConversation

/-- Reloading a persisted snapshot (the `parsed.map` of the load effect). -/
def loadConversations (stored : List StoredConversation) : List Conversation :=
  stored.map loadConversation

/-!
## Conversation session manager (`useConversations`, `src/unnamed/part_000`)

`uuidv4()` calls and `new Date()` reads are passed in as explicit
arguments (`newId`, `now`); `window.confirm` answers are passed as a
`Bool`.  A handler that issues several `setState` updater calls is
modelled by applying the updaters in queue order to the state.
-/
/-- The fresh conversation literal of `createNewConversation`
(lines 21–27). -/
def mkNewConversation (newId : String) (now : Nat) : Conversation :=
  { id := newId, title := "New Chat", messages := [], lastUpdated := now,
    metaInformation := some "" }

/-- `createNewConversation` (lines 19–31): prepend a fresh conversation,
make it current, return its id. -/
def createNewConversation (newId : String) (now : Nat) (s : ConvState) :
    ConvState × String :=
  ({ conversations := mkNewConversation newId now :: s.conversations,
     currentConversationId := some newId }, newId)

/-- The initialization effect (lines 34–56): adopt a non-empty persisted
snapshot (reviving `lastUpdated` and selecting the first entry), else
synthesize a fresh conversation.  `saved = none` models an absent
`localStorage` key; the initial state is empty with no current id. -/
def loadOrSeedConversations (saved : Option (List StoredConversation))
    (newId : String) (now : Nat) : ConvState :=
  match saved with
  | some parsed =>
    match parsed with
    | [] => (createNewConversation newId now
        { conversations := [], currentConversationId := none }).1
    | first :: rest =>
        { conversations := loadConversations (first :: rest),
          currentConversationId := some first.id }
  | none => (createNewConversation newId now
      { conversations := [], currentConversationId := none }).1

/-- Model of JavaScript `String.prototype.trim`: strip whitespace from
both ends (the application's titles are ASCII; the Unicode-whitespace
extras of the JS definition are out of scope). -/
def jsTrim (s : String) : String :=
  String.mk (((s.data.dropWhile Char.isWhitespace).reverse.dropWhile
    Char.isWhitespace).reverse)

/-- `updateConversationTitle` (lines 64–74): store the title, or the
fallback literal `"New Chat"` when it trims to empty
(`title.trim() ? title : 'New Chat'`). -/
def updateConversationTitle (conversationId title : String)
    (convs : List Conversation) : List Conversation :=
  convs.map fun conv =>
    if conv.id = conversationId then
      { conv with title := if jsTrim title = "" then "New Chat" else title }
    else conv

/-- `updateConversationMetaInformation` (lines 76–86): verbatim replace. -/
def updateConversationMetaInformation (conversationId metaInformation : String)
    (convs : List Conversation) : List Conversation :=
  convs.map fun conv =>
    if conv.id = conversationId then
      { conv with metaInformation := some metaInformation }
    else conv

/-- `deleteConversation` (lines 88–99): filter the entry out; if it was
current, re-point the cursor at the first survivor, and when none
survives run `createNewConversation` (whose prepend then acts on the
already-filtered, empty list). -/
def deleteConversation (conversationId : String) (newId : String) (now : Nat)
    (s : ConvState) : ConvState :=
  if s.currentConversationId = some conversationId then
    match s.conversations.filter (fun conv => conv.id ≠ conversationId) with
    | [] => (createNewConversation newId now
        { conversations := [], currentConversationId := s.currentConversationId }).1
    | first :: rest =>
        { conversations := first :: rest, currentConversationId := some first.id }
  else
    { conversations := s.conversations.filter fun conv => conv.id ≠ conversationId,
      currentConversationId := s.currentConversationId }

/-- The derived title of a first user message (line 107):
`content.slice(0, 30) + (content.length > 30 ? '...' : '')` — the suffix
is the three-character ASCII string `"..."`. -/
def deriveTitle (content : String) : String :=
  String.mk (content.data.take 30) ++ (if 30 < content.length then "..." else "")

/-- `addMessageToConversation` (lines 101–118): append the message to the
matching conversation and refresh `lastUpdated`; if a matching
conversation had no messages and the new message is from the user, a
`updateConversationTitle` call with the derived title is enqueued from
inside the updater and applies to the already-appended state. -/
def addMessageToConversation (conversationId : String) (message : Message)
    (now : Nat) (convs : List Conversation) : List Conversation :=
  let appended := convs.map fun conv =>
    if conv.id = conversationId then
      { conv with messages := conv.messages ++ [message], lastUpdated := now }
    else conv
  if (convs.any fun conv => conv.id == conversationId && conv.messages.isEmpty) &&
      message.role == Role.user then
    updateConversationTitle conversationId (deriveTitle message.content) appended
  else
    appended

/-- `clearConversations` (lines 120–126): behind the confirmation gate,
empty the collection and synthesize one fresh conversation. -/
def clearConversations (confirmed : Bool) (newId : String) (now : Nat)
    (s : ConvState) : ConvState :=
  if confirmed then
    (createNewConversation newId now
      { conversations := [], currentConversationId := s.currentConversationId }).1
  else s

/-- `clearCurrentConversation` (lines 128–142): behind the confirmation
gate, reset the current conversation in place. -/
def clearCurrentConversation (confirmed : Bool) (now : Nat) (s : ConvState) :
    ConvState :=
  if confirmed then
    { s with conversations := s.conversations.map fun conv =>
        if some conv.id = s.currentConversationId then
          { conv with messages := [], lastUpdated := now, title := "New Chat" }
        else conv }
  else s

/-- The derived `currentConversation` value (line 144). -/
def currentConversation (s : ConvState) : Option Conversation :=
  s.conversations.find? fun conv => some conv.id = s.currentConversationId

/-- The conversation-manager invariant of the spec: a non-empty
collection whose current id references one of its entries. -/
def convInvariant (s : ConvState) : Prop :=
  s.conversations ≠ [] ∧
  ∃ conv ∈ s.conversations, s.currentConversationId = some conv.id

/-!
## Upload lifecycle manager (`useFileUpload`, `src/unnamed/part_001`)

`uploadFiles` awaits one `fetch` per file, strictly in sequence; the
backend's answer for each file is part of the input (`UploadOutcome`),
and the `uuidv4()` results are supplied as a parallel list of fresh ids
(one consumed per file, on the success and the failure path alike).  The
3-second `setTimeout` scheduled on each success is modelled as an
`UploadTimer` whose later firing is the pure function `fireCompletion`.
-/
/-- File categories (`DocumentCategory`, line 4). -/
inductive DocumentCategory
  | general
  | technical
  | business
  | research
  | other
deriving DecidableEq, BEq, Repr

/-- Processing lifecycle states (`ProcessingStatus`, line 5). -/
inductive ProcessingStatus
  | pending
  | processing
  | completed
  | failed
deriving DecidableEq, BEq, Repr

/-- The `UploadedFile` record (lines 7–16). -/
structure UploadedFile where
  id : String
  name : String
  size : Nat
  uploadDate : Nat
  success : Bool
  category : DocumentCategory
  processingStatus : ProcessingStatus
  documentId : Option String
deriving DecidableEq, Repr

/-- What the backend did with one uploaded file: a 2xx response carrying
the (possibly absent) `document_id` field of its JSON body, a non-2xx
response, or a thrown transport error. -/
inductive UploadOutcome
  | ok (document_id : Option String)
  | reject
  | transportError
deriving DecidableEq, Repr

/-- One file of the submitted `FileList`, together with the outcome its
upload request will have. -/
structure FileReq where
  name : String
  size : Nat
  outcome : UploadOutcome
deriving DecidableEq, Repr

/-- A pending `setTimeout` callback: at `fireAt`, flip the record with
local id `targetId` to `completed`. -/
structure UploadTimer where
  fireAt : Nat
  targetId : String
deriving DecidableEq, Repr

/-- The state of `useFileUpload`: the collection, the `isUploading` flag,
and the not-yet-fired completion timers. -/
structure UploadState where
  uploadedFiles : List UploadedFile
  isUploading : Bool
  timers : List UploadTimer
deriving DecidableEq, Repr

/-- The record inserted for one file (lines 75–84 on success,
lines 100–109 / 114–123 on failure): success inserts `processing` with
the backend's `document_id`; both error paths insert `failed` with
`success = false` and no `documentId`. -/
def uploadRecord (now : Nat) (category : DocumentCategory) (freshId : String)
    (f : FileReq) : UploadedFile :=
  match f.outcome with
  | .ok docId =>
      { id := freshId, name := f.name, size := f.size, uploadDate := now,
        success := true, category := category,
        processingStatus := .processing, documentId := docId }
  | _ =>
      { id := freshId, name := f.name, size := f.size, uploadDate := now,
        success := false, category := category,
        processingStatus := .failed, documentId := none }

/-- One iteration of the upload loop (lines 53–125): prepend the new
record; on success additionally schedule the 3000 ms completion timer
keyed by the fresh local id. -/
def processFile (now : Nat) (category : DocumentCategory) (f : FileReq)
    (freshId : String) (s : UploadState) : UploadState :=
  match f.outcome with
  | .ok _ =>
      { s with
        uploadedFiles := uploadRecord now category freshId f :: s.uploadedFiles,
        timers := s.timers ++ [{ fireAt := now + 3000, targetId := freshId }] }
  | _ =>
      { s with
        uploadedFiles := uploadRecord now category freshId f :: s.uploadedFiles }

/-- The sequential `for … of` loop over the file array, consuming one
fresh id per file. -/
def uploadFilesGo (now : Nat) (category : DocumentCategory) :
    List FileReq → List String → UploadState → UploadState
  | [], _, s => s
  | _ :: _, [], s => s
  | f :: fs, i :: ids, s => uploadFilesGo now category fs ids (processFile now category f i s)

/-- `uploadFiles` (lines 47–128): a `null` file list returns before
touching any state; otherwise `isUploading` is raised, every file is
processed strictly in sequence, and `isUploading` is lowered again.
Errors of either kind are absorbed into `failed` records inside the
loop — the function is total and never re-throws. -/
def uploadFiles (now : Nat) (category : DocumentCategory)
    (files : Option (List FileReq)) (freshIds : List String)
    (s : UploadState) : UploadState :=
  match files with
  | none => s
  | some fs =>
    let s' := uploadFilesGo now category fs freshIds { s with isUploading := true }
    { s' with isUploading := false }

/-- The `setTimeout` callback (lines 87–96): flip the record matching the
captured local id to `completed`; every other record is kept unchanged. -/
def fireCompletion (targetId : String) (files : List UploadedFile) :
    List UploadedFile :=
  files.map fun f =>
    if f.id = targetId then { f with processingStatus := .completed } else f

/-- `deleteFile` (lines 131–133): unconditional local removal. -/
def deleteFile (fileId : String) (files : List UploadedFile) : List UploadedFile :=
  files.filter fun f => f.id ≠ fileId

/-- `updateFileCategory` (lines 166–174): in-place metadata edit. -/
def updateFileCategory (fileId : String) (newCategory : DocumentCategory)
    (files : List UploadedFile) : List UploadedFile :=
  files.map fun f =>
    if f.id = fileId then { f with category := newCategory } else f

/-- `getFilesByCategory` (lines 177–182); `none` models the `'all'`
argument. -/
def getFilesByCategory (category : Option DocumentCategory)
    (files : List UploadedFile) : List UploadedFile :=
  match category with
  | none => files
  | some c => files.filter fun f => f.category == c

/-- Outcome of the remote `DELETE /documents/{document_id}` call. -/
inductive RemoteDeleteResult
  | ok
  | reject
  | transportError
deriving DecidableEq, Repr

/-- Result of `deleteFileFromKnowledgeBase`: the new collection, plus
whether a network request was issued (observable at the service
boundary). -/
structure KBDeleteResult where
  files : List UploadedFile
  networkCalled : Bool
deriving DecidableEq, Repr

/-- JavaScript truthiness of the optional `documentId` string:
`undefined` and the empty string are both falsy. -/
def jsTruthyString : Option String → Bool
  | none => false
  | some s => s ≠ ""

/-- `deleteFileFromKnowledgeBase` (lines 136–163): `!file ||
!file.documentId` short-circuits to a purely local delete (note the
falsiness of an empty-string `documentId`); otherwise the remote delete
is issued, and the local record is removed only on a 2xx response —
on a non-2xx response or a thrown transport error the collection is
left untouched. -/
def deleteFileFromKnowledgeBase (fileId : String)
    (remote : String → RemoteDeleteResult) (files : List UploadedFile) :
    KBDeleteResult :=
  match files.find? fun f => f.id = fileId with
  | none => { files := deleteFile fileId files, networkCalled := false }
  | some file =>
    if jsTruthyString file.documentId then
      match remote (file.documentId.getD "") with
      | .ok => { files := deleteFile fileId files, networkCalled := true }
      | _ => { files := files, networkCalled := true }
    else
      { files := deleteFile fileId files, networkCalled := false }

/-!
## Knowledge-base listing sync (`useFileList`,
`src/expansion_rag_frontend/hooks/useFileList.ts`)
-/
/-- One `{id, name}` entry of the `GET /documents/files` response. -/
structure FileEntry where
  id : String
  name : String
deriving DecidableEq, Repr

/-- The derived `KnowledgeBaseFile` view record (lines 16–21). -/
structure KnowledgeBaseFile where
  id : String
  name : String
  originalName : String
  dateAdded : Option String
deriving DecidableEq, Repr

/-- `processFileEntry` (lines 25–32): the remote name verbatim as both
display and original name, `dateAdded` stamped with the current instant
(`new Date().toISOString()`). -/
def processFileEntry (now : Nat) (entry : FileEntry) : KnowledgeBaseFile :=
  { id := entry.id, name := entry.name, originalName := entry.name,
    dateAdded := some (isoOfTime now) }

/-- What the listing fetch produced: a parsed 2xx body, a non-2xx
response (which the hook turns into a thrown
`Error('Failed to fetch files')`), or a throw from `fetch`/`json`
(`some m` when it was an `Error` carrying message `m`). -/
inductive FetchFilesResponse
  | success (files : List FileEntry)
  | httpError
  | thrown (message : Option String)
deriving DecidableEq, Repr

/-- The state of `useFileList`. -/
structure FileListState where
  files : List KnowledgeBaseFile
  isLoading : Bool
  error : Option String
deriving DecidableEq, Repr

/-- `fetchFiles` (lines 39–60): on success replace the view wholesale and
clear the error; on any failure record the message (`err.message`, or
`'An error occurred'` for a non-`Error` throw) and clear the view; the
`finally` clause always lowers `isLoading`.  The previous state is never
read. -/
def fetchFiles (now : Nat) (response : FetchFilesResponse)
    (_s : FileListState) : FileListState :=
  match response with
  | .success entries =>
      { files := entries.map (processFileEntry now), isLoading := false,
        error := none }
  | .httpError =>
      { files := [], isLoading := false, error := some "Failed to fetch files" }
  | .thrown msg =>
      { files := [], isLoading := false,
        error := some (msg.getD "An error occurred") }

/-!
## Derived batch descriptions and semantic-equality relations
(used only to state and prove the theorems below)
-/
/-- The records an upload batch inserts, in processing order. -/
def uploadRecords (now : Nat) (category : DocumentCategory) :
    List FileReq → List String → List UploadedFile
  | f :: fs, i :: ids => uploadRecord now category i f :: uploadRecords now category fs ids
  | _, _ => []

/-- The completion timers an upload batch schedules, in processing order. -/
def uploadTimers (now : Nat) : List FileReq → List String → List UploadTimer
  | f :: fs, i :: ids =>
    match f.outcome with
    | .ok _ => { fireAt := now + 3000, targetId := i } :: uploadTimers now fs ids
    | _ => uploadTimers now fs ids
  | _, _ => []

/-- The instant a timestamp value denotes: a `Date` is itself, ISO text
denotes its parse. -/
def timeRepDenote : TimeRep → Nat
  | .instant t => t
  | .text s => timeOfIso s

/-- Semantic equality of a message and its reloaded form: identical
role, content and payloads, and timestamps denoting the same instant. -/
def msgSemEq (original reloaded : Message) : Prop :=
  reloaded.role = original.role ∧
  reloaded.content = original.content ∧
  timeRepDenote reloaded.timestamp = timeRepDenote original.timestamp ∧
  reloaded.sources = original.sources ∧
  reloaded.expandedQueries = original.expandedQueries

/-- Semantic equality of a conversation and its reloaded form. -/
def convSemEq (original reloaded : Conversation) : Prop :=
  reloaded.id = original.id ∧
  reloaded.title = original.title ∧
  List.Forall₂ msgSemEq original.messages reloaded.messages ∧
  reloaded.lastUpdated = original.lastUpdated ∧
  reloaded.metaInformation = original.metaInformation

/-- A timestamp value within the exactly-serializable ISO range. -/
def timeRepValid : TimeRep → Prop
  | .instant t => t < isoTimeMax
  | .text _ => True

/-- A conversation all of whose timestamps are serializable. -/
def convValid (conv : Conversation) : Prop :=
  conv.lastUpdated < isoTimeMax ∧ ∀ m ∈ conv.messages, timeRepValid m.timestamp

/-!
## Concrete fixtures (used by witnesses and counterexamples)
-/
/-- A fresh, empty conversation with id `"a"`. -/
def demoConvA : Conversation :=
  { id := "a", title := "New Chat", messages := [], lastUpdated := 0,
    metaInformation := some "" }

/-- A user message with a short (5-character) content. -/
def demoUserMessage : Message :=
  { role := .user, content := "Hello", timestamp := .instant 2,
    sources := none, expandedQueries := none }

/-- A user message whose content is exactly 31 characters long. -/
def demoLongMessage : Message :=
  { role := .user, content := "abcdefghijklmnopqrstuvwxyz01234",
    timestamp := .instant 1, sources := none, expandedQueries := none }

/-- An uploaded-file record carrying a backend document id. -/
def demoUploadedFile : UploadedFile :=
  { id := "f1", name := "doc.pdf", size := 10, uploadDate := 0, success := true,
    category := .general, processingStatus := .processing,
    documentId := some "d1" }

/-- An uploaded-file record whose `documentId` is the empty string. -/
def demoEmptyDocIdFile : UploadedFile :=
  { id := "f1", name := "doc.pdf", size := 10, uploadDate := 0, success := true,
    category := .general, processingStatus := .completed,
    documentId := some "" }

/-- An uploaded-file record with a different local id. -/
def demoOtherFile : UploadedFile :=
  { id := "f2", name := "other.pdf", size := 5, uploadDate := 0, success := true,
    category := .technical, processingStatus := .completed,
    documentId := some "d2" }

/-- A conversation fixture with one live-`Date` message and one message
whose timestamp is already textual. -/
def demoRichConv : Conversation :=
  { id := "c9", title := "T"
    messages := [demoUserMessage,
      { role := .assistant, content := "Hi"
        timestamp := .text "2024-01-01T00:00:00.000Z"
        sources := none, expandedQueries := none }]
    lastUpdated := 1700000000000, metaInformation := some "ctx" }

example : civilFromDays 0 = (1970, 1, 1) := by decide

example : civilFromDays 58 = (1970, 2, 28) := by decide

example : civilFromDays 59 = (1970, 3, 1) := by decide

example : civilFromDays 11016 = (2000, 2, 29) := by decide

example : civilFromDays 19723 = (2024, 1, 1) := by decide

example : civilFromDays 47540 = (2100, 2, 28) := by decide

example : civilFromDays 2932896 = (9999, 12, 31) := by decide

example : daysFromCivil 1970 1 1 = 0 := by decide

example : daysFromCivil 2000 2 29 = 11016 := by decide

example : daysFromCivil 9999 12 31 = 2932896 := by decide

set_option maxHeartbeats 3200000 in
/-- Arithmetic core of the calendar round trip: from the defining
equations of every intermediate quantity of `civilFromDays`,
`daysFromCivil` recovers the day number, and the components satisfy the
civil-date bounds. -/
theorem civil_arith (days z era doe c doc q doq yq doy mp d m yoe y : Nat)
    (hz : z = days + 719468)
    (hera : era = z / 146097) (hdoe : doe = z % 146097)
    (hc : c = min (doe / 36524) 3) (hdoc : doc = doe - 36524 * c)
    (hq : q = min (doc / 1461) 24) (hdoq : doq = doc - 1461 * q)
    (hyq : yq = min (doq / 365) 3) (hdoy : doy = doq - 365 * yq)
    (hmp : mp = (5 * doy + 2) / 153)
    (hd : d = doy - (153 * mp + 2) / 5 + 1)
    (hm : m = if mp < 10 then mp + 3 else mp - 9)
    (hyoe : yoe = 100 * c + 4 * q + yq)
    (hy : y = yoe + era * 400 + (if m ≤ 2 then 1 else 0))
    (hdays : days < 2932897) :
    daysFromCivil y m d = days ∧
    1 ≤ m ∧ m ≤ 12 ∧ 1 ≤ d ∧ d ≤ 31 ∧ 1970 ≤ y ∧ y ≤ 9999 := by
  have h1 : z = 146097 * era + doe ∧ doe < 146097 ∧ era ≤ 24 ∧ 4 ≤ era ∧
      (era = 4 → 135080 ≤ doe) := by omega
  have h2 : doe = 36524 * c + doc ∧ c ≤ 3 ∧ doc ≤ 36524 ∧
      (era = 24 → doe ≤ 146036) := by omega
  have h3 : doc = 1461 * q + doq ∧ q ≤ 24 ∧ doq ≤ 1460 := by omega
  have h4 : doq = 365 * yq + doy ∧ yq ≤ 3 ∧ doy ≤ 365 := by omega
  have h5 : mp ≤ 11 ∧ (153 * mp + 2) / 5 ≤ doy ∧ doy - (153 * mp + 2) / 5 ≤ 30 ∧
      (306 ≤ doy ↔ 10 ≤ mp) := by omega
  clear hera hdoe hc hq hyq hmp
  rcases lt_or_le mp 10 with h10 | h10
  · -- March..December: m = mp + 3 ≥ 3, both "if m ≤ 2" tests are false
    rw [if_pos h10] at hm
    rw [if_neg (show ¬ m ≤ 2 by omega)] at hy
    simp only [daysFromCivil, if_neg (show ¬ m ≤ 2 by omega),
      if_pos (show 2 < m by omega), Nat.sub_zero]
    have e1 : y / 400 = era := by omega
    have e2 : y % 400 = yoe := by omega
    rw [e1, e2]
    have e3 : yoe / 4 = 25 * c + q := by omega
    have e4 : yoe / 100 = c := by omega
    rw [e3, e4]
    have e5 : m - 3 = mp := by omega
    rw [e5]
    omega
  · -- January..February: m = mp - 9 ≤ 2, the year shifts by one
    rw [if_neg (show ¬ mp < 10 by omega)] at hm
    rw [if_pos (show m ≤ 2 by omega)] at hy
    simp only [daysFromCivil, if_pos (show m ≤ 2 by omega),
      if_neg (show ¬ 2 < m by omega)]
    have e1 : (y - 1) / 400 = era := by omega
    have e2 : (y - 1) % 400 = yoe := by omega
    rw [e1, e2]
    have e3 : yoe / 4 = 25 * c + q := by omega
    have e4 : yoe / 100 = c := by omega
    rw [e3, e4]
    have e5 : m + 9 = mp := by omega
    rw [e5]
    omega

/-- `daysFromCivil` inverts `civilFromDays` on every day number up to
9999-12-31, and the produced components are a valid civil date. -/
theorem civil_roundtrip (days : Nat) (h : days < 2932897) :
    daysFromCivil (civilFromDays days).1 (civilFromDays days).2.1
      (civilFromDays days).2.2 = days ∧
    1 ≤ (civilFromDays days).2.1 ∧ (civilFromDays days).2.1 ≤ 12 ∧
    1 ≤ (civilFromDays days).2.2 ∧ (civilFromDays days).2.2 ≤ 31 ∧
    1970 ≤ (civilFromDays days).1 ∧ (civilFromDays days).1 ≤ 9999 := by
  rcases hcd : civilFromDays days with ⟨y, m, d⟩
  unfold civilFromDays at hcd
  lift_lets at hcd
  extract_lets z era doe c doc q doq yq doy mp d' m' yoe y' at hcd
  have hz : z = days + 719468 := rfl
  have hera : era = z / 146097 := rfl
  have hdoe : doe = z % 146097 := rfl
  have hc : c = min (doe / 36524) 3 := rfl
  have hdoc : doc = doe - 36524 * c := rfl
  have hq : q = min (doc / 1461) 24 := rfl
  have hdoq : doq = doc - 1461 * q := rfl
  have hyq : yq = min (doq / 365) 3 := rfl
  have hdoy : doy = doq - 365 * yq := rfl
  have hmp : mp = (5 * doy + 2) / 153 := rfl
  have hd' : d' = doy - (153 * mp + 2) / 5 + 1 := rfl
  have hm' : m' = if mp < 10 then mp + 3 else mp - 9 := rfl
  have hyoe : yoe = 100 * c + 4 * q + yq := rfl
  have hy' : y' = yoe + era * 400 + (if m' ≤ 2 then 1 else 0) := rfl
  obtain ⟨hy, hm, hd⟩ : y' = y ∧ m' = m ∧ d' = d := by
    simpa [Prod.ext_iff] using hcd
  subst hy hm hd
  exact civil_arith days z era doe c doc q doq yq doy mp d' m' yoe y' hz hera hdoe
    hc hdoc hq hdoq hyq hdoy hmp hd' hm' hyoe hy' h

theorem digitVal_digitChar (n : Nat) : digitVal (digitChar n) = n % 10 := by
  unfold digitChar
  have h : n % 10 < 10 := Nat.mod_lt _ (by decide)
  set k := n % 10 with hk
  interval_cases k <;> rfl

example : isoOfTime 0 = "1970-01-01T00:00:00.000Z" := by decide

example : isoOfTime 1700000000000 = "2023-11-14T22:13:20.000Z" := by decide

example : isoOfTime 951782400000 = "2000-02-29T00:00:00.000Z" := by decide

example : timeOfIso "2023-11-14T22:13:20.000Z" = 1700000000000 := by decide

/-- Serializing an instant to ISO text and parsing it back is the
identity on every instant up to year 9999 (millisecond precision). -/
theorem timeOfIso_isoOfTime (t : Nat) (h : t < isoTimeMax) :
    timeOfIso (isoOfTime t) = t := by
  have hdays : t / 86400000 < 2932897 := by
    have : isoTimeMax = 2932897 * 86400000 := by decide
    omega
  obtain ⟨hinv, hm1, hm2, hd1, hd2, hy1, hy2⟩ := civil_roundtrip (t / 86400000) hdays
  rcases hcd : civilFromDays (t / 86400000) with ⟨y, m, d⟩
  rw [hcd] at hinv hm1 hm2 hd1 hd2 hy1 hy2
  dsimp only at hinv hm1 hm2 hd1 hd2 hy1 hy2
  unfold isoOfTime
  rw [hcd]
  simp only [pad4, pad3, pad2, List.cons_append, List.nil_append]
  unfold timeOfIso
  simp only [String.toList, digitVal_digitChar]
  have ey : 1000 * (y / 1000 % 10) + 100 * (y / 100 % 10) + 10 * (y / 10 % 10) +
      y % 10 = y := by omega
  have em : 10 * (m / 10 % 10) + m % 10 = m := by omega
  have ed : 10 * (d / 10 % 10) + d % 10 = d := by omega
  have ehh : 10 * (t % 86400000 / 3600000 / 10 % 10) + t % 86400000 / 3600000 % 10 =
      t % 86400000 / 3600000 := by omega
  have emi : 10 * (t % 86400000 / 60000 % 60 / 10 % 10) +
      t % 86400000 / 60000 % 60 % 10 = t % 86400000 / 60000 % 60 := by omega
  have ess : 10 * (t % 86400000 / 1000 % 60 / 10 % 10) +
      t % 86400000 / 1000 % 60 % 10 = t % 86400000 / 1000 % 60 := by omega
  have ems : 100 * (t % 86400000 % 1000 / 100 % 10) +
      10 * (t % 86400000 % 1000 / 10 % 10) + t % 86400000 % 1000 % 10 =
      t % 86400000 % 1000 := by omega
  rw [ey, em, ed, ehh, emi, ess, ems, hinv]
  omega

/-!
## Theorems
-/
/-- C7 (counterexample): `createConversation` does not append the fresh
conversation at the end of the collection — starting from a one-element
collection, the result is not `old ++ [new]` (the fresh conversation is
prepended at the head instead). -/
theorem createConversation_append_refuted :
    ¬ ((createNewConversation "n" 5
          { conversations := [demoConvA], currentConversationId := some "a" }).1.conversations
        = [demoConvA] ++ [mkNewConversation "n" 5]) := by decide

/-- C7 (amended: "appends" → "prepends"): `createConversation` prepends a
new conversation with the placeholder title `"New Chat"`, an empty
message sequence and the current timestamp, sets it current, and returns
its id; the collection grows by exactly one. -/
theorem createConversation_spec (s : ConvState) (newId : String) (now : Nat) :
    (createNewConversation newId now s).1.conversations =
      mkNewConversation newId now :: s.conversations ∧
    (createNewConversation newId now s).1.conversations.length =
      s.conversations.length + 1 ∧
    (createNewConversation newId now s).1.currentConversationId = some newId ∧
    (createNewConversation newId now s).2 = newId ∧
    (mkNewConversation newId now).title = "New Chat" ∧
    (mkNewConversation newId now).messages = [] ∧
    (mkNewConversation newId now).lastUpdated = now :=
  ⟨rfl, rfl, rfl, rfl, rfl, rfl, rfl⟩

/-- C1: after initialization the conversation collection is non-empty
and the current id references an entry; `deleteConversation` preserves
the invariant — when the deleted conversation was current, the cursor
moves to the first remaining entry in collection order, and when nothing
remains a fresh conversation is synthesized and becomes current — and
`clearAllConversations` (confirmed) re-establishes it with exactly one
fresh conversation. -/
theorem conversation_invariant_delete_clear
    (s : ConvState) (conversationId newId : String) (now : Nat)
    (hinv : convInvariant s) :
    (∀ saved, convInvariant (loadOrSeedConversations saved newId now)) ∧
    convInvariant (deleteConversation conversationId newId now s) ∧
    (s.currentConversationId = some conversationId →
      (∀ first rest,
        s.conversations.filter (fun conv => conv.id ≠ conversationId) = first :: rest →
        deleteConversation conversationId newId now s =
          { conversations := first :: rest, currentConversationId := some first.id }) ∧
      (s.conversations.filter (fun conv => conv.id ≠ conversationId) = [] →
        deleteConversation conversationId newId now s =
          { conversations := [mkNewConversation newId now],
            currentConversationId := some newId })) ∧
    clearConversations true newId now s =
      { conversations := [mkNewConversation newId now],
        currentConversationId := some newId } ∧
    convInvariant (clearConversations true newId now s) := by
  obtain ⟨hne, conv, hmem, hcur⟩ := hinv
  refine ⟨?_, ?_, ?_, rfl, ?_⟩
  · intro saved
    rcases saved with _ | parsed
    · exact ⟨by simp [loadOrSeedConversations, createNewConversation],
        mkNewConversation newId now,
        by simp [loadOrSeedConversations, createNewConversation], rfl⟩
    · rcases parsed with _ | ⟨first, rest⟩
      · exact ⟨by simp [loadOrSeedConversations, createNewConversation],
          mkNewConversation newId now,
          by simp [loadOrSeedConversations, createNewConversation], rfl⟩
      · exact ⟨by simp [loadOrSeedConversations, loadConversations],
          loadConversation first,
          by simp [loadOrSeedConversations, loadConversations], rfl⟩
  · unfold deleteConversation
    by_cases hc : s.currentConversationId = some conversationId
    · rw [if_pos hc]
      rcases hfil : s.conversations.filter (fun conv => conv.id ≠ conversationId)
        with _ | ⟨first, rest⟩
      · rw [hfil]
        exact ⟨by simp [createNewConversation], mkNewConversation newId now,
          by simp [createNewConversation], rfl⟩
      · rw [hfil]
        exact ⟨by simp, first, by simp, rfl⟩
    · rw [if_neg hc]
      have hconvne : conv.id ≠ conversationId := by
        intro h
        exact hc (by rw [hcur, h])
      have hmem' : conv ∈ s.conversations.filter (fun c => c.id ≠ conversationId) := by
        rw [List.mem_filter]
        exact ⟨hmem, by simpa using hconvne⟩
      exact ⟨List.ne_nil_of_mem hmem', conv, hmem', hcur⟩
  · intro hc
    constructor
    · intro first rest hfil
      unfold deleteConversation
      rw [if_pos hc, hfil]
    · intro hfil
      unfold deleteConversation
      rw [if_pos hc, hfil]
      rfl
  · exact ⟨by simp [clearConversations, createNewConversation],
      mkNewConversation newId now,
      by simp [clearConversations, createNewConversation], rfl⟩

/-- C1 (witness): the invariant-preservation and clear-all facts at a
concrete one-conversation state. -/
theorem conversation_invariant_delete_clear_witness :
    convInvariant (deleteConversation "a" "b" 1
      { conversations := [demoConvA], currentConversationId := some "a" }) ∧
    clearConversations true "b" 1
      { conversations := [demoConvA], currentConversationId := some "a" } =
      { conversations := [mkNewConversation "b" 1],
        currentConversationId := some "b" } := by
  have h := conversation_invariant_delete_clear
    { conversations := [demoConvA], currentConversationId := some "a" } "a" "b" 1
    ⟨by simp, demoConvA, by simp, rfl⟩
  exact ⟨h.2.1, h.2.2.2.1⟩

/-- C2 (counterexample): the suffix appended to a 31-character first user
message is the three-character ASCII `"..."`, not the single Unicode
ellipsis `"…"` the claim states. -/
theorem addMessage_unicode_ellipsis_refuted :
    (addMessageToConversation "a" demoLongMessage 1 [demoConvA]).map
        Conversation.title = ["abcdefghijklmnopqrstuvwxyz0123..."] ∧
    ¬ ((addMessageToConversation "a" demoLongMessage 1 [demoConvA]).map
        Conversation.title = ["abcdefghijklmnopqrstuvwxyz0123…"]) := by decide

/-- C2 (amended: the appended ellipsis is the ASCII string `"..."`): a
first user message added to a conversation with no messages sets that
conversation's title to the first 30 characters of the content, with
`"..."` appended when the content exceeds 30 characters and the content
verbatim otherwise, falling back to `"New Chat"` when the derived title
trims to empty; when every matching conversation already has messages,
the same call only appends — no title is touched. -/
theorem addMessage_first_user_title
    (convs : List Conversation) (conv : Conversation) (message : Message)
    (now : Nat) (hmem : conv ∈ convs) (hrole : message.role = Role.user) :
    (conv.messages = [] →
      addMessageToConversation conv.id message now convs =
        convs.map fun c =>
          if c.id = conv.id then
            { c with
              messages := c.messages ++ [message]
              lastUpdated := now
              title := if jsTrim (deriveTitle message.content) = "" then "New Chat"
                       else deriveTitle message.content }
          else c) ∧
    (message.content.length ≤ 30 → deriveTitle message.content = message.content) ∧
    (30 < message.content.length →
      deriveTitle message.content =
        String.mk (message.content.data.take 30) ++ "...") ∧
    ((∀ c ∈ convs, c.id = conv.id → c.messages ≠ []) →
      addMessageToConversation conv.id message now convs =
        convs.map fun c =>
          if c.id = conv.id then
            { c with messages := c.messages ++ [message], lastUpdated := now }
          else c) := by
  refine ⟨?_, ?_, ?_, ?_⟩
  · intro hempty
    unfold addMessageToConversation
    have hcond : ((convs.any fun c => c.id == conv.id && c.messages.isEmpty) &&
        message.role == Role.user) = true := by
      rw [Bool.and_eq_true]
      constructor
      · rw [List.any_eq_true]
        exact ⟨conv, hmem, by simp [hempty]⟩
      · rw [hrole]
        rfl
    rw [if_pos hcond]
    unfold updateConversationTitle
    rw [List.map_map]
    apply List.map_congr_left
    intro c _
    by_cases hid : c.id = conv.id
    · simp [Function.comp, hid]
    · simp [Function.comp, hid]
  · intro hlen
    unfold deriveTitle
    rw [if_neg (by omega : ¬ 30 < message.content.length)]
    have htake : message.content.data.take 30 = message.content.data :=
      List.take_of_length_le hlen
    rw [htake]
    calc String.mk message.content.data ++ "" =
        String.mk (message.content.data ++ []) := rfl
      _ = String.mk message.content.data := by rw [List.append_nil]
      _ = message.content := rfl
  · intro hlen
    unfold deriveTitle
    rw [if_pos hlen]
  · intro hall
    unfold addMessageToConversation
    have hany : (convs.any fun c => c.id == conv.id && c.messages.isEmpty) = false := by
      rw [List.any_eq_false]
      intro c hc
      simp only [Bool.and_eq_true, beq_iff_eq, List.isEmpty_iff, not_and]
      exact hall c hc
    have hcond : ¬ (((convs.any fun c => c.id == conv.id && c.messages.isEmpty) &&
        message.role == Role.user) = true) := by
      simp [hany]
    rw [if_neg hcond]

/-- C2 (witness): the mechanism at a concrete one-conversation state — a
short first user message becomes the title verbatim. -/
theorem addMessage_first_user_title_witness :
    addMessageToConversation "a" demoUserMessage 2 [demoConvA] =
      [{ demoConvA with
         messages := [demoUserMessage]
         lastUpdated := 2
         title := "Hello" }] := by
  have h := (addMessage_first_user_title [demoConvA] demoConvA demoUserMessage 2
    (by simp) rfl).1 rfl
  rw [show ("a" : String) = demoConvA.id from rfl, h]
  decide

/-- C10: every mutation keyed by an id matching no record is a no-op:
`updateTitle`, `updateMetaInformation` and `addMessage` on an unknown
conversation id leave the conversation collection unchanged, and
`updateCategory` and `deleteFile` on an unknown file id leave the
uploaded-file collection unchanged. -/
theorem unknown_id_mutations_noop
    (convs : List Conversation) (files : List UploadedFile)
    (conversationId fileId title metaInformation : String) (message : Message)
    (now : Nat) (newCategory : DocumentCategory)
    (hconv : ∀ conv ∈ convs, conv.id ≠ conversationId)
    (hfile : ∀ f ∈ files, f.id ≠ fileId) :
    updateConversationTitle conversationId title convs = convs ∧
    updateConversationMetaInformation conversationId metaInformation convs = convs ∧
    addMessageToConversation conversationId message now convs = convs ∧
    updateFileCategory fileId newCategory files = files ∧
    deleteFile fileId files = files := by
  have hmapT : updateConversationTitle conversationId title convs = convs := by
    unfold updateConversationTitle
    calc convs.map (fun conv =>
          if conv.id = conversationId then
            { conv with title := if jsTrim title = "" then "New Chat" else title }
          else conv) = convs.map id :=
        List.map_congr_left (fun c hc => by simp [hconv c hc])
      _ = convs := List.map_id convs
  refine ⟨hmapT, ?_, ?_, ?_, ?_⟩
  · unfold updateConversationMetaInformation
    calc convs.map (fun conv =>
          if conv.id = conversationId then
            { conv with metaInformation := some metaInformation }
          else conv) = convs.map id :=
        List.map_congr_left (fun c hc => by simp [hconv c hc])
      _ = convs := List.map_id convs
  · unfold addMessageToConversation
    have hcond : ¬ (((convs.any fun c => c.id == conversationId && c.messages.isEmpty) &&
        message.role == Role.user) = true) := by
      have hany : (convs.any fun c => c.id == conversationId && c.messages.isEmpty)
          = false := by
        rw [List.any_eq_false]
        intro c hc
        simp [hconv c hc]
      simp [hany]
    rw [if_neg hcond]
    calc convs.map (fun conv =>
          if conv.id = conversationId then
            { conv with messages := conv.messages ++ [message], lastUpdated := now }
          else conv) = convs.map id :=
        List.map_congr_left (fun c hc => by simp [hconv c hc])
      _ = convs := List.map_id convs
  · unfold updateFileCategory
    calc files.map (fun f =>
          if f.id = fileId then { f with category := newCategory } else f) =
        files.map id :=
        List.map_congr_left (fun f hf => by simp [hfile f hf])
      _ = files := List.map_id files
  · unfold deleteFile
    rw [List.filter_eq_self]
    intro f hf
    simpa using hfile f hf

/-- C10 (witness): the five no-ops at concrete one-element collections
and the unknown id `"z"`. -/
theorem unknown_id_mutations_noop_witness :
    updateConversationTitle "z" "t" [demoConvA] = [demoConvA] ∧
    updateConversationMetaInformation "z" "m" [demoConvA] = [demoConvA] ∧
    addMessageToConversation "z" demoUserMessage 3 [demoConvA] = [demoConvA] ∧
    updateFileCategory "z" .technical [demoUploadedFile] = [demoUploadedFile] ∧
    deleteFile "z" [demoUploadedFile] = [demoUploadedFile] :=
  unknown_id_mutations_noop [demoConvA] [demoUploadedFile] "z" "z" "t" "m"
    demoUserMessage 3 .technical (by decide) (by decide)

theorem uploadRecord_id (now : Nat) (category : DocumentCategory) (i : String)
    (f : FileReq) : (uploadRecord now category i f).id = i := by
  rcases f with ⟨name, size, outcome⟩
  cases outcome <;> rfl

theorem uploadRecords_length (now : Nat) (category : DocumentCategory) :
    ∀ (fs : List FileReq) (ids : List String), fs.length = ids.length →
      (uploadRecords now category fs ids).length = fs.length
  | [], [], _ => rfl
  | [], _ :: _, h => by simp at h
  | _ :: _, [], h => by simp at h
  | f :: fs, i :: ids, h => by
    simp only [uploadRecords, List.length_cons,
      uploadRecords_length now category fs ids (by simpa using h)]

theorem uploadRecords_map_id (now : Nat) (category : DocumentCategory) :
    ∀ (fs : List FileReq) (ids : List String), fs.length = ids.length →
      (uploadRecords now category fs ids).map UploadedFile.id = ids
  | [], [], _ => rfl
  | [], _ :: _, h => by simp at h
  | _ :: _, [], h => by simp at h
  | f :: fs, i :: ids, h => by
    simp only [uploadRecords, List.map_cons, uploadRecord_id,
      uploadRecords_map_id now category fs ids (by simpa using h)]

theorem uploadRecords_mem (now : Nat) (category : DocumentCategory) :
    ∀ (fs : List FileReq) (ids : List String) (f : FileReq) (i : String),
      (f, i) ∈ fs.zip ids →
      uploadRecord now category i f ∈ uploadRecords now category fs ids
  | [], _, _, _, h => by simp at h
  | _ :: _, [], _, _, h => by simp at h
  | f' :: fs, i' :: ids, f, i, h => by
    have h2 : (f = f' ∧ i = i') ∨ (f, i) ∈ fs.zip ids := by
      simpa [List.zip_cons_cons] using h
    rcases h2 with ⟨rfl, rfl⟩ | h'
    · exact List.mem_cons_self _ _
    · exact List.mem_cons_of_mem _ (uploadRecords_mem now category fs ids f i h')

theorem uploadTimers_mem (now : Nat) :
    ∀ (fs : List FileReq) (ids : List String) (f : FileReq) (i : String)
      (docId : Option String),
      (f, i) ∈ fs.zip ids → f.outcome = .ok docId →
      ({ fireAt := now + 3000, targetId := i } : UploadTimer) ∈ uploadTimers now fs ids
  | [], _, _, _, _, h, _ => by simp at h
  | _ :: _, [], _, _, _, h, _ => by simp at h
  | f' :: fs, i' :: ids, f, i, docId, h, hok => by
    have h2 : (f = f' ∧ i = i') ∨ (f, i) ∈ fs.zip ids := by
      simpa [List.zip_cons_cons] using h
    rcases h2 with ⟨rfl, rfl⟩ | h'
    · simp only [uploadTimers, hok]
      exact List.mem_cons_self _ _
    · have ih := uploadTimers_mem now fs ids f i docId h' hok
      rcases f' with ⟨name, size, outcome⟩
      cases outcome <;> simp only [uploadTimers] <;>
        first
          | exact List.mem_cons_of_mem _ ih
          | exact ih

theorem uploadFilesGo_spec (now : Nat) (category : DocumentCategory) :
    ∀ (fs : List FileReq) (ids : List String) (s : UploadState),
      fs.length = ids.length →
      (uploadFilesGo now category fs ids s).uploadedFiles =
        (uploadRecords now category fs ids).reverse ++ s.uploadedFiles ∧
      (uploadFilesGo now category fs ids s).timers =
        s.timers ++ uploadTimers now fs ids ∧
      (uploadFilesGo now category fs ids s).isUploading = s.isUploading
  | [], _, s, _ => by simp [uploadFilesGo, uploadRecords, uploadTimers]
  | _ :: _, [], s, h => by simp at h
  | f :: fs, i :: ids, s, h => by
    obtain ⟨ih1, ih2, ih3⟩ := uploadFilesGo_spec now category fs ids
      (processFile now category f i s) (by simpa using h)
    rcases f with ⟨name, size, outcome⟩
    refine ⟨?_, ?_, ?_⟩
    · rw [show uploadFilesGo now category (⟨name, size, outcome⟩ :: fs) (i :: ids) s =
        uploadFilesGo now category fs ids
          (processFile now category ⟨name, size, outcome⟩ i s) from rfl, ih1]
      cases outcome <;>
        simp [processFile, uploadRecords, List.append_assoc]
    · rw [show uploadFilesGo now category (⟨name, size, outcome⟩ :: fs) (i :: ids) s =
        uploadFilesGo now category fs ids
          (processFile now category ⟨name, size, outcome⟩ i s) from rfl, ih2]
      cases outcome <;>
        simp [processFile, uploadTimers, List.append_assoc]
    · rw [show uploadFilesGo now category (⟨name, size, outcome⟩ :: fs) (i :: ids) s =
        uploadFilesGo now category fs ids
          (processFile now category ⟨name, size, outcome⟩ i s) from rfl, ih3]
      cases outcome <;> simp [processFile]

/-- C3: `uploadFiles` on `N` files processes them sequentially into `N`
new records (prepended, so the collection grows by exactly `N`) whose
local ids are the supplied fresh UUIDs — pairwise distinct; every
success-path record is `processing` immediately after the call, carries a
timer for `now + 3000` keyed by its local id, and the timer's later
firing flips exactly that record to `completed`, matched strictly by id,
even after an interleaved deletion of any other record. -/
theorem uploadFiles_batch_spec (now : Nat) (category : DocumentCategory)
    (fs : List FileReq) (ids : List String) (s : UploadState)
    (hlen : fs.length = ids.length) (hnodup : ids.Nodup) :
    (uploadFiles now category (some fs) ids s).uploadedFiles =
      (uploadRecords now category fs ids).reverse ++ s.uploadedFiles ∧
    (uploadFiles now category (some fs) ids s).uploadedFiles.length =
      fs.length + s.uploadedFiles.length ∧
    ((uploadRecords now category fs ids).map UploadedFile.id).Nodup ∧
    (uploadFiles now category (some fs) ids s).timers =
      s.timers ++ uploadTimers now fs ids ∧
    (∀ f i docId, (f, i) ∈ fs.zip ids → f.outcome = .ok docId →
      uploadRecord now category i f ∈
        (uploadFiles now category (some fs) ids s).uploadedFiles ∧
      (uploadRecord now category i f).processingStatus = .processing ∧
      ({ fireAt := now + 3000, targetId := i } : UploadTimer) ∈
        (uploadFiles now category (some fs) ids s).timers ∧
      (∀ deletedId, deletedId ≠ i →
        { uploadRecord now category i f with processingStatus := .completed } ∈
          fireCompletion i (deleteFile deletedId
            (uploadFiles now category (some fs) ids s).uploadedFiles) ∧
        ∀ g ∈ (uploadFiles now category (some fs) ids s).uploadedFiles,
          g.id ≠ i → g.id ≠ deletedId →
          g ∈ fireCompletion i (deleteFile deletedId
            (uploadFiles now category (some fs) ids s).uploadedFiles))) := by
  obtain ⟨hgo1, hgo2, _⟩ := uploadFilesGo_spec now category fs ids
    { s with isUploading := true } hlen
  have hfiles : (uploadFiles now category (some fs) ids s).uploadedFiles =
      (uploadRecords now category fs ids).reverse ++ s.uploadedFiles := by
    simpa [uploadFiles] using hgo1
  have htimers : (uploadFiles now category (some fs) ids s).timers =
      s.timers ++ uploadTimers now fs ids := by
    simpa [uploadFiles] using hgo2
  refine ⟨hfiles, ?_, ?_, htimers, ?_⟩
  · rw [hfiles]
    simp [uploadRecords_length now category fs ids hlen]
  · rw [uploadRecords_map_id now category fs ids hlen]
    exact hnodup
  · intro f i docId hzip hok
    have hrec : uploadRecord now category i f ∈
        (uploadFiles now category (some fs) ids s).uploadedFiles := by
      rw [hfiles]
      exact List.mem_append_left _
        (List.mem_reverse.mpr (uploadRecords_mem now category fs ids f i hzip))
    have hstatus : (uploadRecord now category i f).processingStatus = .processing := by
      rcases f with ⟨name, size, outcome⟩
      cases outcome with
      | ok docId' => rfl
      | reject => exact absurd hok (by simp)
      | transportError => exact absurd hok (by simp)
    refine ⟨hrec, hstatus, ?_, ?_⟩
    · rw [htimers]
      exact List.mem_append_right _ (uploadTimers_mem now fs ids f i docId hzip hok)
    · intro deletedId hdel
      have hid : (uploadRecord now category i f).id = i := uploadRecord_id ..
      have hmemdel : uploadRecord now category i f ∈
          deleteFile deletedId (uploadFiles now category (some fs) ids s).uploadedFiles :=
        List.mem_filter.mpr ⟨hrec, by simp [hid, Ne.symm hdel]⟩
      constructor
      · unfold fireCompletion
        exact List.mem_map.mpr ⟨uploadRecord now category i f, hmemdel, by simp [hid]⟩
      · intro g hg hgi hgdel
        have hgmem : g ∈ deleteFile deletedId
            (uploadFiles now category (some fs) ids s).uploadedFiles :=
          List.mem_filter.mpr ⟨hg, by simp [hgdel]⟩
        unfold fireCompletion
        exact List.mem_map.mpr ⟨g, hgmem, by simp [hgi]⟩

/-- C3 (witness): a two-file batch — one success, one rejection — against
an empty collection: the concrete characterization and the completion of
the successful record after deleting the other. -/
theorem uploadFiles_batch_spec_witness :
    (uploadFiles 10 .general
        (some [⟨"a.pdf", 1, .ok (some "d1")⟩, ⟨"b.pdf", 2, .reject⟩])
        ["u1", "u2"] { uploadedFiles := [], isUploading := false, timers := [] }
      ).uploadedFiles.length = 2 ∧
    uploadRecord 10 .general "u1" ⟨"a.pdf", 1, .ok (some "d1")⟩ ∈
      (uploadFiles 10 .general
        (some [⟨"a.pdf", 1, .ok (some "d1")⟩, ⟨"b.pdf", 2, .reject⟩])
        ["u1", "u2"] { uploadedFiles := [], isUploading := false, timers := [] }
      ).uploadedFiles := by
  have h := uploadFiles_batch_spec 10 .general
    [⟨"a.pdf", 1, .ok (some "d1")⟩, ⟨"b.pdf", 2, .reject⟩] ["u1", "u2"]
    { uploadedFiles := [], isUploading := false, timers := [] }
    (by decide) (by decide)
  exact ⟨h.2.1, (h.2.2.2.2 ⟨"a.pdf", 1, .ok (some "d1")⟩ "u1" (some "d1")
    (by decide) rfl).1⟩

/-- C4: both upload error paths — backend rejection and transport
failure — insert a record with `processingStatus = failed`,
`success = false` and no `documentId`; every file (the failed ones
included) grows the collection by exactly one record; the embedding of
the handler is a total function: the `catch` block absorbs the failure
into the record and nothing is re-thrown to the caller. -/
theorem uploadFiles_error_records (now : Nat) (category : DocumentCategory)
    (fs : List FileReq) (ids : List String) (s : UploadState)
    (hlen : fs.length = ids.length) :
    (uploadFiles now category (some fs) ids s).uploadedFiles.length =
      fs.length + s.uploadedFiles.length ∧
    (∀ f i, (f, i) ∈ fs.zip ids →
      (f.outcome = .reject ∨ f.outcome = .transportError) →
      uploadRecord now category i f =
        { id := i, name := f.name, size := f.size, uploadDate := now
          success := false, category := category
          processingStatus := .failed, documentId := none } ∧
      uploadRecord now category i f ∈
        (uploadFiles now category (some fs) ids s).uploadedFiles) := by
  obtain ⟨hgo1, _, _⟩ := uploadFilesGo_spec now category fs ids
    { s with isUploading := true } hlen
  have hfiles : (uploadFiles now category (some fs) ids s).uploadedFiles =
      (uploadRecords now category fs ids).reverse ++ s.uploadedFiles := by
    simpa [uploadFiles] using hgo1
  constructor
  · rw [hfiles]
    simp [uploadRecords_length now category fs ids hlen]
  · intro f i hzip herr
    constructor
    · rcases f with ⟨name, size, outcome⟩
      rcases herr with h | h <;> (rw [show outcome = _ from h]; rfl)
    · rw [hfiles]
      exact List.mem_append_left _
        (List.mem_reverse.mpr (uploadRecords_mem now category fs ids f i hzip))

/-- C4 (witness): a backend 500 and a transport failure, each yielding
one `failed` record with `success = false` and no `documentId`. -/
theorem uploadFiles_error_records_witness :
    (uploadFiles 10 .general (some [⟨"a.pdf", 1, .reject⟩, ⟨"b.pdf", 2, .transportError⟩])
        ["u1", "u2"] { uploadedFiles := [], isUploading := false, timers := [] }
      ).uploadedFiles.length = 2 ∧
    uploadRecord 10 .general "u1" ⟨"a.pdf", 1, .reject⟩ =
      { id := "u1", name := "a.pdf", size := 1, uploadDate := 10
        success := false, category := .general
        processingStatus := .failed, documentId := none } := by
  have h := uploadFiles_error_records 10 .general
    [⟨"a.pdf", 1, .reject⟩, ⟨"b.pdf", 2, .transportError⟩] ["u1", "u2"]
    { uploadedFiles := [], isUploading := false, timers := [] } (by decide)
  exact ⟨h.1, (h.2 ⟨"a.pdf", 1, .reject⟩ "u1" (by decide) (Or.inl rfl)).1⟩

/-- C9: once the record a completion timer targets has been deleted, the
callback is the identity on the collection — it re-inserts nothing and
touches no other record; in general the callback is the identity on any
collection holding no record with the target id. -/
theorem fireCompletion_deleted_noop (targetId : String)
    (files : List UploadedFile) :
    fireCompletion targetId (deleteFile targetId files) =
      deleteFile targetId files ∧
    ∀ files' : List UploadedFile, (∀ f ∈ files', f.id ≠ targetId) →
      fireCompletion targetId files' = files' := by
  have hgen : ∀ files' : List UploadedFile, (∀ f ∈ files', f.id ≠ targetId) →
      fireCompletion targetId files' = files' := by
    intro files' h
    unfold fireCompletion
    calc files'.map (fun f =>
          if f.id = targetId then { f with processingStatus := .completed } else f) =
        files'.map id := List.map_congr_left (fun f hf => by simp [h f hf])
      _ = files' := List.map_id files'
  refine ⟨hgen _ ?_, hgen⟩
  intro f hf
  simpa using (List.mem_filter.mp hf).2

/-- C9 (witness): deleting the targeted record and firing its timer at a
concrete one-record collection. -/
theorem fireCompletion_deleted_noop_witness :
    fireCompletion "f1" (deleteFile "f1" [demoUploadedFile]) =
      deleteFile "f1" [demoUploadedFile] ∧
    fireCompletion "f1" [demoOtherFile] = [demoOtherFile] :=
  ⟨(fireCompletion_deleted_noop "f1" [demoUploadedFile]).1,
   (fireCompletion_deleted_noop "f1" [demoUploadedFile]).2 [demoOtherFile]
     (by decide)⟩

/-- C5 (counterexample): a record whose `documentId` is present but equal
to the empty string — `!file.documentId` is true for `""` — is removed
locally with no network call, even though the remote delete (had it been
issued) would have failed; the claim's "on a record with a documentId it
issues a remote delete … leaving the local record intact on any failure"
is false at this input. -/
theorem deleteKB_empty_docId_refuted :
    demoEmptyDocIdFile.documentId.isSome = true ∧
    (deleteFileFromKnowledgeBase "f1" (fun _ => RemoteDeleteResult.reject)
      [demoEmptyDocIdFile]).networkCalled = false ∧
    (deleteFileFromKnowledgeBase "f1" (fun _ => RemoteDeleteResult.reject)
      [demoEmptyDocIdFile]).files = [] ∧
    ¬ ((deleteFileFromKnowledgeBase "f1" (fun _ => RemoteDeleteResult.reject)
      [demoEmptyDocIdFile]).files = [demoEmptyDocIdFile]) := by decide

/-- C5 (amended: a record without a `documentId` — or whose `documentId`
is the empty string, which JavaScript truthiness treats as absent — is
removed locally without any network call; on a record with a non-empty
`documentId` a remote delete keyed by it is issued and the local record
is removed exactly when the remote call reports success, staying intact
on any failure). -/
theorem deleteFileFromKnowledgeBase_spec (fileId : String)
    (remote : String → RemoteDeleteResult) (files : List UploadedFile)
    (file : UploadedFile)
    (hfind : files.find? (fun f => f.id = fileId) = some file) :
    ((file.documentId = none ∨ file.documentId = some "") →
      deleteFileFromKnowledgeBase fileId remote files =
        { files := deleteFile fileId files, networkCalled := false }) ∧
    (∀ d, file.documentId = some d → d ≠ "" →
      (remote d = .ok →
        deleteFileFromKnowledgeBase fileId remote files =
          { files := deleteFile fileId files, networkCalled := true }) ∧
      (remote d ≠ .ok →
        deleteFileFromKnowledgeBase fileId remote files =
          { files := files, networkCalled := true })) := by
  unfold deleteFileFromKnowledgeBase
  rw [hfind]
  dsimp only
  constructor
  · intro hdoc
    have hfalse : jsTruthyString file.documentId = false := by
      rcases hdoc with h | h <;> simp [jsTruthyString, h]
    rw [hfalse]
    rfl
  · intro d hd hne
    have htrue : jsTruthyString file.documentId = true := by
      simp [jsTruthyString, hd, hne]
    rw [htrue, hd]
    constructor
    · intro hok
      simp [hok]
    · intro hnok
      cases hr : remote d with
      | ok => exact absurd hr hnok
      | reject => simp [hr]
      | transportError => simp [hr]

/-- C5 (witness): a record with the non-empty `documentId` `"d1"` and a
succeeding remote call is removed locally with the network call made;
a record with an absent `documentId` is removed locally without one. -/
theorem deleteFileFromKnowledgeBase_spec_witness :
    deleteFileFromKnowledgeBase "f1" (fun _ => RemoteDeleteResult.ok)
      [demoUploadedFile] =
      { files := deleteFile "f1" [demoUploadedFile], networkCalled := true } ∧
    deleteFileFromKnowledgeBase "f3" (fun _ => RemoteDeleteResult.ok)
      [{ demoUploadedFile with id := "f3", documentId := none }] =
      { files := deleteFile "f3" [{ demoUploadedFile with id := "f3", documentId := none }]
        networkCalled := false } :=
  ⟨((deleteFileFromKnowledgeBase_spec "f1" (fun _ => RemoteDeleteResult.ok)
      [demoUploadedFile] demoUploadedFile (by decide)).2 "d1" rfl
      (by decide)).1 rfl,
   (deleteFileFromKnowledgeBase_spec "f3" (fun _ => RemoteDeleteResult.ok)
      [{ demoUploadedFile with id := "f3", documentId := none }]
      { demoUploadedFile with id := "f3", documentId := none } (by decide)).1
      (Or.inl rfl)⟩

/-- C6: a successful listing fetch replaces the held view wholesale with
one `KnowledgeBaseFile` per remote `{id, name}` entry — the remote name
verbatim as both `name` and `originalName`, `dateAdded` stamped with the
fetch instant — and clears the error; on a non-2xx response or a thrown
transport error the view is cleared to empty and an error message is
recorded; in every case the result is independent of the previously held
state, so no stale or partial view survives a failed refresh. -/
theorem fetchFiles_spec (now : Nat) (response : FetchFilesResponse)
    (s s' : FileListState) :
    (∀ entries, response = .success entries →
      fetchFiles now response s =
        { files := entries.map (processFileEntry now), isLoading := false,
          error := none } ∧
      ∀ e ∈ entries, processFileEntry now e =
        { id := e.id, name := e.name, originalName := e.name,
          dateAdded := some (isoOfTime now) }) ∧
    ((∀ entries, response ≠ .success entries) →
      (fetchFiles now response s).files = [] ∧
      ∃ msg, (fetchFiles now response s).error = some msg) ∧
    fetchFiles now response s = fetchFiles now response s' := by
  refine ⟨?_, ?_, rfl⟩
  · intro entries h
    subst h
    exact ⟨rfl, fun e _ => rfl⟩
  · intro h
    cases response with
    | success entries => exact absurd rfl (h entries)
    | httpError => exact ⟨rfl, "Failed to fetch files", rfl⟩
    | thrown msg => exact ⟨rfl, msg.getD "An error occurred", rfl⟩

/-- C6 (witness): a concrete successful fetch over a stale erroneous
state, and a concrete transport failure clearing a non-empty view. -/
theorem fetchFiles_spec_witness :
    fetchFiles 0 (.success [{ id := "d1", name := "doc.pdf" }])
      { files := [], isLoading := true, error := some "old" } =
      { files := [processFileEntry 0 { id := "d1", name := "doc.pdf" }],
        isLoading := false, error := none } ∧
    (fetchFiles 0 (.thrown none)
      { files := [processFileEntry 0 { id := "d1", name := "doc.pdf" }],
        isLoading := false, error := none }).files = [] :=
  ⟨((fetchFiles_spec 0 (.success [{ id := "d1", name := "doc.pdf" }])
      { files := [], isLoading := true, error := some "old" }
      { files := [], isLoading := true, error := some "old" }).1 _ rfl).1,
   ((fetchFiles_spec 0 (.thrown none)
      { files := [processFileEntry 0 { id := "d1", name := "doc.pdf" }],
        isLoading := false, error := none }
      { files := [], isLoading := true, error := some "old" }).2.1
      (fun entries h => by cases h)).1⟩

theorem message_roundtrip_semEq (m : Message) (h : timeRepValid m.timestamp) :
    msgSemEq m (loadMessage (serializeMessage m)) := by
  refine ⟨rfl, rfl, ?_, rfl, rfl⟩
  show timeRepDenote (.text (isoOfTimeRep m.timestamp)) = timeRepDenote m.timestamp
  cases hm : m.timestamp with
  | instant t =>
    rw [hm] at h
    show timeOfIso (isoOfTime t) = t
    exact timeOfIso_isoOfTime t h
  | text str => rfl

theorem conversation_roundtrip_semEq (c : Conversation) (h : convValid c) :
    convSemEq c (loadConversation (serializeConversation c)) := by
  obtain ⟨hlu, hmsgs⟩ := h
  refine ⟨rfl, rfl, ?_, ?_, rfl⟩
  · show List.Forall₂ msgSemEq c.messages
      ((c.messages.map serializeMessage).map loadMessage)
    have hgen : ∀ (ms : List Message), (∀ m ∈ ms, timeRepValid m.timestamp) →
        List.Forall₂ msgSemEq ms ((ms.map serializeMessage).map loadMessage) := by
      intro ms hms
      induction ms with
      | nil => exact List.Forall₂.nil
      | cons m ms ih =>
        exact List.Forall₂.cons (message_roundtrip_semEq m (hms m (by simp)))
          (ih fun m' hm' => hms m' (by simp [hm']))
    exact hgen c.messages hmsgs
  · show timeOfIso (isoOfTime c.lastUpdated) = c.lastUpdated
    exact timeOfIso_isoOfTime c.lastUpdated hlu

/-- C8: persisting the conversation collection as a full JSON snapshot
and reloading it (reviving `lastUpdated` from its serialized ISO text)
yields a collection semantically equal to the original — same ids,
titles, metadata, message sequences and timestamps, where reloaded
message timestamps remain in their textual form and are compared by the
instant they denote (serialization is exact at millisecond precision for
every instant up to year 9999). -/
theorem conversations_persistence_roundtrip (convs : List Conversation)
    (h : ∀ c ∈ convs, convValid c) :
    List.Forall₂ convSemEq convs (loadConversations (saveConversations convs)) := by
  unfold loadConversations saveConversations
  induction convs with
  | nil => exact List.Forall₂.nil
  | cons c cs ih =>
    simp only [List.map_cons]
    exact List.Forall₂.cons (conversation_roundtrip_semEq c (h c (by simp)))
      (ih fun c' hc' => h c' (by simp [hc']))

/-- C8 (witness): the snapshot round trip at a concrete two-message
conversation. -/
theorem conversations_persistence_roundtrip_witness :
    List.Forall₂ convSemEq [demoRichConv]
      (loadConversations (saveConversations [demoRichConv])) := by
  apply conversations_persistence_roundtrip
  intro c hc
  obtain rfl := List.mem_singleton.mp hc
  refine ⟨by decide, ?_⟩
  intro m hm
  have hm2 : m = demoUserMessage ∨
      m = { role := .assistant, content := "Hi"
            timestamp := .text "2024-01-01T00:00:00.000Z"
            sources := none, expandedQueries := none } := by
    simpa [demoRichConv] using hm
  rcases hm2 with rfl | rfl
  · show (2 : Nat) < isoTimeMax
    decide
  · trivial
